import Mathlib

/-!
Verification of the document/ACL logic of `src/src/components/Home.jsx`
(the PASS repository).  The pod-client capability (`@inrupt/solid-client`)
is external to the repository; its primitives are modelled from the spec's
description of the consumed interface (§6), while every function of
`Home.jsx` itself is translated directly from the source.
-/

namespace PASS

/-! ### JS string primitives used by `Home.jsx` -/

/-- JS `s.slice(-n)`: the last `n` characters of `s` (the whole string when shorter). -/
def sliceLast (s : String) (n : Nat) : String :=
  ⟨s.data.drop (s.data.length - n)⟩

/-- The test `file.url.slice(-3).includes('/')` from `hasFiles`/`deleteDocumentFile`. -/
def slashIn (u : String) : Bool :=
  (sliceLast u 3).data.contains '/'

/-- Longest prefix of the second list before the first occurrence of `pat`:
the JS expression `l.split(pat)[0]` at character level. -/
def splitHead (pat : List Char) : List Char → List Char
  | [] => []
  | c :: cs => if pat.isPrefixOf (c :: cs) then [] else c :: splitHead pat cs

/-- JS `s.split(pat)[0]`. -/
def splitFirst (s pat : String) : String :=
  ⟨splitHead pat.data s.data⟩

/-! ### Data model of the remote pod -/

/-- One metadata record ("Thing"): subject URL plus the four string fields
written by `uploadDocument`. -/
structure MetaThing where
  url : String
  name : String
  identifier : String
  endDate : String
  description : String
deriving DecidableEq, Repr

/-- Modelled from the spec: an RDF-like dataset of Things keyed by subject URL (§6). -/
abbrev MetaDataset := List MetaThing

/-- A resource stored inside a container: an uploaded file or a metadata dataset. -/
inductive Resource where
  | file : Resource
  | dataset : MetaDataset → Resource
deriving DecidableEq, Repr

/-- A pod container: its contained resources keyed by URL. -/
structure Container where
  items : List (String × Resource)
deriving DecidableEq, Repr

/-- A Solid access object; JS access objects such as `{read: true}` leave the
remaining flags `undefined`, which the ACL capability treats as `false`. -/
structure Access where
  read : Bool
  append : Bool
  write : Bool
  control : Bool
deriving DecidableEq, Repr

/-- Per-identity ACL state: direct-resource access and default/inherited access. -/
structure AclEntry where
  resourceAccess : Option Access
  defaultAccess : Option Access
deriving DecidableEq, Repr

/-- An ACL resource: access entries keyed by WebID. -/
abbrev Acl := List (String × AclEntry)

/-- Modelled from the spec: the remote store owns all persisted state (§3).
`fresh` drives generated names; `failFilePlacement` is the transport oracle
deciding whether file placement fails (§7). -/
structure PodState where
  containers : List (String × Container)
  acls : List (String × Acl)
  fresh : Nat
  failFilePlacement : Bool
deriving DecidableEq, Repr

/-- Association-list lookup on the first binding of `k`. -/
def lookupKey (k : String) : List (String × α) → Option α
  | [] => none
  | (k2, v) :: rest => if k2 = k then some v else lookupKey k rest

/-- Association-list update: overwrite the first binding of `k`, else append. -/
def setKey (k : String) (v : α) : List (String × α) → List (String × α)
  | [] => [(k, v)]
  | (k2, v2) :: rest => if k2 = k then (k, v) :: rest else (k2, v2) :: setKey k v rest

/-! ### The consumed pod-client capability, modelled from the spec (§6) -/

/-- The two shapes `getSolidDataset` can return: a container listing or a
metadata dataset. -/
inductive SolidDataset where
  | listing : String → Container → SolidDataset
  | meta : String → MetaDataset → SolidDataset
deriving DecidableEq, Repr

/-- The URL a dataset was read from. -/
def datasetUrl : SolidDataset → String
  | .listing u _ => u
  | .meta u _ => u

/-- Modelled from the spec: `createContainerAt` — idempotent create-if-absent (§6). -/
def createContainerAt (url : String) (st : PodState) : PodState :=
  match lookupKey url st.containers with
  | some _ => st
  | none => { st with containers := setKey url ⟨[]⟩ st.containers }

/-- Modelled from the spec: `saveFileInContainer` places a file in a container
under a slug-derived URL; fails when the transport oracle says so (§6, §7). -/
def saveFileInContainer (curl : String) (slug : String) (st : PodState) :
    Except String PodState :=
  if st.failFilePlacement then .error "placement failed"
  else
    match lookupKey curl st.containers with
    | none => .error "no such container"
    | some c =>
      .ok { st with
            containers := setKey curl ⟨setKey (curl ++ slug) .file c.items⟩ st.containers }

/-- Search every container for a contained metadata dataset with the given URL. -/
def findDatasetItem (url : String) : List (String × Container) → Option MetaDataset
  | [] => none
  | (_, c) :: rest =>
    match lookupKey url c.items with
    | some (Resource.dataset d) => some d
    | _ => findDatasetItem url rest

/-- Modelled from the spec: `getSolidDataset` — reading a container URL yields
its listing, reading a metadata-file URL yields the dataset, anything else
(including the JS `null` URL an unknown document type produces) fails (§6). -/
def getSolidDataset (st : PodState) : Option String → Except String SolidDataset
  | none => .error "invalid URL"
  | some url =>
    match lookupKey url st.containers with
    | some c => .ok (.listing url c)
    | none =>
      match findDatasetItem url st.containers with
      | some d => .ok (.meta url d)
      | none => .error "not found or unauthorized"

/-- Modelled from the spec: `getThingAll` — the Things of a dataset; for a
container listing these are the container itself followed by its items (§6). -/
def getThingAll : SolidDataset → List String
  | .listing curl c => curl :: c.items.map Prod.fst
  | .meta _ d => d.map MetaThing.url

/-- Modelled from the spec: `createThing` — an explicit name is used as the
subject, otherwise a fresh generated name (§6). -/
def createThing (givenName : Option String) (fresh : Nat) : String :=
  match givenName with
  | some n => n
  | none => "#thing" ++ ⟨List.replicate fresh 'x'⟩

/-- The `buildThing(...).addStringNoLocale(...)` chain of `uploadDocument`. -/
def buildThing (subject fname ftype fdate fdescription : String) : MetaThing :=
  ⟨subject, fname, ftype, fdate, fdescription⟩

/-- Modelled from the spec: `createSolidDataset` — a fresh empty dataset (§6). -/
def createSolidDataset : MetaDataset := []

/-- Remove every Thing whose subject equals `u`. -/
def removeMatching (u : String) : MetaDataset → MetaDataset
  | [] => []
  | x :: xs => if x.url = u then removeMatching u xs else x :: removeMatching u xs

/-- Modelled from the spec: `setThing` — replace-by-identity on the subject URL:
any Thing with the new Thing's subject is removed, then the new Thing is added (§6). -/
def setThing (d : MetaDataset) (t : MetaThing) : MetaDataset :=
  removeMatching t.url d ++ [t]

/-- Modelled from the spec: `saveSolidDatasetAt` — overwrite the resource at
`url` with the dataset, in whichever container stores it (§6). -/
def saveSolidDatasetAt (url : String) (d : MetaDataset) (st : PodState) : PodState :=
  { st with
    containers := st.containers.map fun p =>
      (p.1, ⟨p.2.items.map fun q => if q.1 = url then (q.1, .dataset d) else q⟩) }

/-- The generated filename of a dataset saved into a container; ends in `.ttl`. -/
def dsName (k : Nat) : String :=
  ("dataset" ++ toString k) ++ ".ttl"

/-- Modelled from the spec: `saveSolidDatasetInContainer` — save the dataset as
a new `.ttl` resource with a generated name inside the container (§6). -/
def saveSolidDatasetInContainer (curl : String) (d : MetaDataset) (st : PodState) :
    Except String PodState :=
  match lookupKey curl st.containers with
  | none => .error "no such container"
  | some c =>
    .ok { st with
          containers :=
            setKey curl ⟨c.items ++ [(curl ++ dsName st.fresh, .dataset d)]⟩ st.containers,
          fresh := st.fresh + 1 }

/-- An ACL entry with neither scope set. -/
def noAclEntry : AclEntry := ⟨none, none⟩

/-- Modelled from the spec: `createAcl` — empty ACL scaffold for a resource (§6). -/
def createAcl (_resource : SolidDataset) : Acl := []

/-- Modelled from the spec: `setAgentResourceAccess` (§6). -/
def setAgentResourceAccess (acl : Acl) (webId : String) (a : Access) : Acl :=
  let old := (lookupKey webId acl).getD noAclEntry
  setKey webId { old with resourceAccess := some a } acl

/-- Modelled from the spec: `setAgentDefaultAccess` (§6). -/
def setAgentDefaultAccess (acl : Acl) (webId : String) (a : Access) : Acl :=
  let old := (lookupKey webId acl).getD noAclEntry
  setKey webId { old with defaultAccess := some a } acl

/-- Modelled from the spec: `saveAclFor` — store the ACL resource of a target URL (§6). -/
def saveAclFor (targetUrl : String) (acl : Acl) (st : PodState) : PodState :=
  { st with acls := setKey targetUrl acl st.acls }

/-- Modelled from the spec: `getSolidDatasetWithAcl` (§6). -/
def getSolidDatasetWithAcl (st : PodState) (url : Option String) :
    Except String (SolidDataset × Option Acl) :=
  match getSolidDataset st url with
  | .error e => .error e
  | .ok ds => .ok (ds, lookupKey (datasetUrl ds) st.acls)

/-- Modelled from the spec: `getResourceAcl` (§6). -/
def getResourceAcl (p : SolidDataset × Option Acl) : Option Acl := p.2

/-! ### The functions of `Home.jsx` -/

/-- The authenticated session: only `session.info.webId` is read by the core. -/
structure Session where
  webId : String
deriving DecidableEq, Repr

/-- The form submission: `{type, date, description, file}`; `fileName` is
`fileObject.file.name`. -/
structure FileObject where
  type : String
  date : String
  description : String
  fileName : String
deriving DecidableEq, Repr

/-- `fetchUrl` from `Home.jsx`: resolve (document type, fetch mode, pod) to a
container URL, or `null` for an unrecognized type. -/
def fetchUrl (session : Session) (fileType fetchType otherPodUrl : String) :
    Option String :=
  let POD_URL : String :=
    if fetchType = "self-fetch" then splitFirst session.webId "profile"
    else "https://" ++ otherPodUrl ++ "/"
  if fileType = "Bank Statement" then some (POD_URL ++ "Bank%20Statement/")
  else if fileType = "Passport" then some (POD_URL ++ "Passport/")
  else if fileType = "Drivers License" then some (POD_URL ++ "Drivers%20License/")
  else none

/-- `placeFileInContainer` from `Home.jsx`: any error of `saveFileInContainer`
is caught and logged; the function has no `return` statement, so its JS result
is `undefined` (here `none`) on every path. -/
def placeFileInContainer (st : PodState) (fileObject : FileObject)
    (containerUrl : String) : PodState × Option String :=
  match saveFileInContainer containerUrl fileObject.fileName st with
  | .ok st2 => (st2, none)
  | .error _ => (st, none)

/-- The search `items.find((item) => item.url.slice(-3) === 'ttl')` of `hasTTLFiles`. -/
def findTTL : List String → Option String
  | [] => none
  | u :: us => if sliceLast u 3 = "ttl" then some u else findTTL us

/-- `hasTTLFiles` from `Home.jsx`. -/
def hasTTLFiles (ds : SolidDataset) : Option String :=
  findTTL (getThingAll ds)

/-- The `items.forEach` loop of `hasFiles`: push an item whose last three
characters contain no `/` onto `files`, otherwise overwrite `directory`. -/
def partitionFiles (acc : Option String × List String) :
    List String → Option String × List String
  | [] => acc
  | u :: us =>
    if slashIn u then partitionFiles (some u, acc.2) us
    else partitionFiles (acc.1, acc.2 ++ [u]) us

/-- `hasFiles` from `Home.jsx` (`directory` starts unset; JS initialises it
to the empty string and never reassigns it when no item matches). -/
def hasFiles (ds : SolidDataset) : Option String × List String :=
  partitionFiles (none, []) (getThingAll ds)

/-- `setupAcl` from `Home.jsx`. -/
def setupAcl (resourceWithAcl : Acl) (webId : String) (accessObject : Access) : Acl :=
  setAgentDefaultAccess (setAgentResourceAccess resourceWithAcl webId accessObject)
    webId accessObject

/-- The owner's access object built inside `createDocAclForUser`. -/
def fullAccess : Access := ⟨true, true, true, true⟩

/-- `createDocAclForUser` from `Home.jsx`. -/
def createDocAclForUser (st : PodState) (session : Session) (documentUrl : String) :
    Except String PodState :=
  match getSolidDataset st (some documentUrl) with
  | .error e => .error e
  | .ok podResourceWithoutAcl =>
    let resourceAcl := createAcl podResourceWithoutAcl
    let newAcl := setupAcl resourceAcl session.webId fullAccess
    .ok (saveAclFor documentUrl newAcl st)

/-- The access objects `{read: true}` / `{read: false}` of `setDocAclPermission`;
the JS-absent flags are `false` to the ACL capability. -/
def readOnlyAccess (b : Bool) : Access := ⟨b, false, false, false⟩

/-- `setDocAclPermission` from `Home.jsx`.  The source calls
`fetchUrl(session, fileType, 'self-fetch')` with the fourth argument
`undefined`; the self-fetch branch never reads it, modelled by `""`. -/
def setDocAclPermission (st : PodState) (session : Session)
    (fileType accessType otherPodUrl : String) : Except String PodState :=
  let documentUrl := fetchUrl session fileType "self-fetch" ""
  match getSolidDatasetWithAcl st documentUrl with
  | .error e => .error e
  | .ok podResouceWithAcl =>
    match getResourceAcl podResouceWithAcl with
    | none => .error "no resource ACL"
    | some resourceAcl =>
      let webId := "https://" ++ otherPodUrl ++ "/profile/card#me"
      let accessObject :=
        if accessType = "Give" then readOnlyAccess true else readOnlyAccess false
      let updatedAcl := setupAcl resourceAcl webId accessObject
      .ok (saveAclFor (datasetUrl podResouceWithAcl.1) updatedAcl st)

/-- `uploadDocument` from `Home.jsx`.  `storedFile` is the JS result of
`placeFileInContainer`, which is `undefined` on every path.  When `fetchUrl`
yields `null` the first capability call (`createContainerAt(null)`) rejects,
modelled by the early error. -/
def uploadDocument (st : PodState) (session : Session) (fileObject : FileObject) :
    Except String PodState :=
  match fetchUrl session fileObject.type "self-fetch" "" with
  | none => .error "invalid URL"
  | some documentUrl =>
    let st1 := createContainerAt documentUrl st
    let placed := placeFileInContainer st1 fileObject documentUrl
    let st2 := placed.1
    let storedFile := placed.2
    match getSolidDataset st2 (some documentUrl) with
    | .error e => .error e
    | .ok getDatasetFromUrl =>
      let ttlFile := hasTTLFiles getDatasetFromUrl
      let toBeUpdated :=
        buildThing (createThing storedFile st2.fresh) fileObject.fileName
          fileObject.type fileObject.date fileObject.description
      let st3 := { st2 with fresh := st2.fresh + 1 }
      match ttlFile with
      | some ttlUrl =>
        match getSolidDataset st3 (some ttlUrl) with
        | .error e => .error e
        | .ok (.listing _ _) => .error "not a metadata dataset"
        | .ok (.meta _ d) =>
          .ok (saveSolidDatasetAt ttlUrl (setThing d toBeUpdated) st3)
      | none =>
        match saveSolidDatasetInContainer documentUrl
            (setThing createSolidDataset toBeUpdated) st3 with
        | .error e => .error e
        | .ok st4 => createDocAclForUser st4 session documentUrl

/-- `fetchDocuments` from `Home.jsx`. -/
def fetchDocuments (st : PodState) (session : Session)
    (fileType fetchType otherPodUrl : String) : Except String (Option String) :=
  let documentUrl := fetchUrl session fileType fetchType otherPodUrl
  match getSolidDataset st documentUrl with
  | .ok _ => .ok documentUrl
  | .error _ => .error "No data found or unauthorized"

/-- Remove the item bound to `url` from an item list. -/
def removeItem (url : String) : List (String × Resource) → List (String × Resource)
  | [] => []
  | q :: qs => if q.1 = url then removeItem url qs else q :: removeItem url qs

/-- Modelled from the spec: `deleteFile` — remove the resource at `url` (§6). -/
def deleteFile (url : String) (st : PodState) : PodState :=
  { st with containers := st.containers.map fun p => (p.1, ⟨removeItem url p.2.items⟩) }

/-- The `files.filter(async (file) => ...)` loop of `deleteDocumentFile`:
re-checks the slash test and issues `deleteFile` for each passing URL; the
second component records the delete calls issued. -/
def deleteFilesLoop (st : PodState) : List String → PodState × List String
  | [] => (st, [])
  | u :: us =>
    if slashIn u then deleteFilesLoop st us
    else
      let r := deleteFilesLoop (deleteFile u st) us
      (r.1, u :: r.2)

/-- `deleteDocumentFile` from `Home.jsx`; the result carries the final store
state, the JS return value `container.url`, and the file-delete calls issued. -/
def deleteDocumentFile (st : PodState) (session : Session) (fileType : String) :
    Except String (PodState × Option String × List String) :=
  let documentUrl := fetchUrl session fileType "self-fetch" ""
  match getSolidDataset st documentUrl with
  | .error e => .error e
  | .ok fetched =>
    let pf := hasFiles fetched
    let r := deleteFilesLoop st pf.2
    .ok (r.1, pf.1, r.2)

/-! ### Claim-side definitions (stated from the claims' words, for comparison) -/

/-- The partition described by claim C5 (trailing-slash heuristic): a URL not
ending in `/` is a file resource. -/
def specTrailingSlashFiles (items : List String) : List String :=
  items.filter fun u => u.data.getLast? != some '/'

/-- The claim-side container component: the item ending in `/`. -/
def specTrailingSlashContainer (items : List String) : Option String :=
  (items.filter fun u => u.data.getLast? == some '/').getLast?

/-- The metadata datasets among a container's items. -/
def datasetsIn : List (String × Resource) → List MetaDataset
  | [] => []
  | (_, Resource.file) :: rest => datasetsIn rest
  | (_, Resource.dataset d) :: rest => d :: datasetsIn rest

/-- The generated subject of `createThing` when no name is supplied. -/
def thingName (n : Nat) : String :=
  "#thing" ++ ⟨List.replicate n 'x'⟩

/-- The metadata Thing `uploadDocument` builds for a file object when the
fresh-name counter is `n` (recall `storedFile` is always `undefined`). -/
def mkThing (n : Nat) (fo : FileObject) : MetaThing :=
  ⟨thingName n, fo.fileName, fo.type, fo.date, fo.description⟩

/-- The file items placement leaves in a container: none when the transport
oracle fails the placement, else the single placed file. -/
def fileItems (b : Bool) (curl : String) (fo : FileObject) : List (String × Resource) :=
  if b then [] else [(curl ++ fo.fileName, Resource.file)]

/-! ### String lemmas -/

/-- The characters of the JS separator literal `'profile'`. -/
def profileChars : List Char := ['p', 'r', 'o', 'f', 'i', 'l', 'e']

lemma profile_border (k : Nat) (h1 : 0 < k) (h2 : k < 7) :
    (profileChars.drop k).isPrefixOf profileChars = false := by
  interval_cases k <;> decide

lemma splitHead_profile (p r : List Char) (hp : ¬ profileChars <:+: p) :
    splitHead profileChars ((p ++ profileChars) ++ r) = p := by
  induction p with
  | nil =>
    have hpre : profileChars.isPrefixOf ('p' :: (['r', 'o', 'f', 'i', 'l', 'e'] ++ r)) = true := by
      rw [List.isPrefixOf_iff_prefix]
      exact List.prefix_append profileChars r
    show splitHead profileChars ('p' :: (['r', 'o', 'f', 'i', 'l', 'e'] ++ r)) = []
    rw [splitHead, if_pos hpre]
  | cons c p' ih =>
    have hp' : ¬ profileChars <:+: p' := fun h => hp (List.infix_cons h)
    have hcond : profileChars.isPrefixOf (c :: ((p' ++ profileChars) ++ r)) = false := by
      by_contra hne
      rw [Bool.not_eq_false] at hne
      have hpre0 := List.isPrefixOf_iff_prefix.mp hne
      have hpre : profileChars <+: (c :: p') ++ (profileChars ++ r) := by
        simpa [List.append_assoc] using hpre0
      obtain ⟨t, ht⟩ := hpre
      rcases Nat.lt_or_ge (c :: p').length 7 with hlt | hge
      · -- a short prefix would force a border of "profile", which has none
        set k := (c :: p').length with hk
        have hkpos : 0 < k := by simp [hk]
        have hdrop : List.drop k (profileChars ++ t)
            = List.drop k ((c :: p') ++ (profileChars ++ r)) := by rw [ht]
        rw [List.drop_left] at hdrop
        have hdropP : List.drop k (profileChars ++ t) = List.drop k profileChars ++ t := by
          rw [List.drop_append_eq_append_drop]
          have h0 : k - profileChars.length = 0 := by
            simp only [profileChars, List.length_cons, List.length_nil]
            omega
          rw [h0, List.drop_zero]
        rw [hdropP] at hdrop
        have hlen : (List.drop k profileChars).length = 7 - k := by
          simp [profileChars]
        have hA : List.take (7 - k) (List.drop k profileChars ++ t)
            = List.drop k profileChars := by
          rw [List.take_append_of_le_length (le_of_eq hlen.symm), ← hlen, List.take_length]
        have hB : List.take (7 - k) (profileChars ++ r)
            = List.take (7 - k) profileChars :=
          List.take_append_of_le_length (by simp [profileChars])
        have htake : List.drop k profileChars = List.take (7 - k) profileChars := by
          rw [← hA, ← hB, hdrop]
        have hpfx : (profileChars.drop k).isPrefixOf profileChars = true := by
          rw [List.isPrefixOf_iff_prefix, htake]
          exact List.take_prefix _ _
        rw [profile_border k hkpos hlt] at hpfx
        exact Bool.false_ne_true hpfx
      · -- otherwise "profile" would occur inside c :: p'
        have htake : List.take 7 (profileChars ++ t)
            = List.take 7 ((c :: p') ++ (profileChars ++ r)) := by rw [ht]
        rw [List.take_append_of_le_length (by simp [profileChars]),
            List.take_append_of_le_length hge] at htake
        have h7 : List.take 7 profileChars = profileChars := by decide
        rw [h7] at htake
        exact hp (List.IsPrefix.isInfix (htake ▸ List.take_prefix 7 (c :: p')))
    show splitHead profileChars (c :: ((p' ++ profileChars) ++ r)) = c :: p'
    rw [splitHead, if_neg (by rw [hcond]; exact Bool.false_ne_true)]
    rw [ih hp']

lemma splitFirst_profile (p r : String) (hp : ¬ profileChars <:+: p.data) :
    splitFirst (p ++ "profile" ++ r) "profile" = p := by
  show (⟨splitHead "profile".data (p ++ "profile" ++ r).data⟩ : String) = p
  have hd : (p ++ "profile" ++ r).data = (p.data ++ profileChars) ++ r.data := rfl
  rw [show "profile".data = profileChars from rfl, hd, splitHead_profile p.data r.data hp]

lemma sliceLast_append_right (s t : String) (h : 3 ≤ t.data.length) :
    sliceLast (s ++ t) 3 = sliceLast t 3 := by
  unfold sliceLast
  have hd : (s ++ t).data = s.data ++ t.data := rfl
  rw [hd, List.length_append]
  have harith : s.data.length + t.data.length - 3 = s.data.length + (t.data.length - 3) := by
    omega
  rw [harith, List.drop_append]

lemma getLast_slash_ne_ttl (u : String) (h : u.data.getLast? = some '/') :
    sliceLast u 3 ≠ "ttl" := by
  intro heq
  have hdata : u.data.drop (u.data.length - 3) = ['t', 't', 'l'] := congrArg String.data heq
  have hsplit : u.data = u.data.take (u.data.length - 3) ++ ['t', 't', 'l'] := by
    rw [← hdata, List.take_append_drop]
  rw [hsplit, List.getLast?_append_of_ne_nil _ (by simp)] at h
  simp at h

lemma slash_append_ne_ttl (s t : String) (hs : s.data.getLast? = some '/')
    (ht : sliceLast t 3 ≠ "ttl") : sliceLast (s ++ t) 3 ≠ "ttl" := by
  rcases Nat.lt_or_ge t.data.length 3 with hlt | hge
  · intro heq
    have hne : s.data ≠ [] := by
      intro h0
      rw [h0] at hs
      simp at hs
    have hnpos : 0 < s.data.length := List.length_pos.mpr hne
    have hdata : (s.data ++ t.data).drop (s.data.length + t.data.length - 3)
        = ['t', 't', 'l'] := by
      have hq := congrArg String.data heq
      simpa [sliceLast, List.length_append] using hq
    set n := s.data.length with hn
    set m := t.data.length with hm
    set k := n + m - 3 with hk
    have hidx : (['t', 't', 'l'] : List Char).get? (n - 1 - k) = some '/' := by
      rw [← hdata, List.get?_drop]
      have harith : k + (n - 1 - k) = n - 1 := by omega
      rw [harith, List.get?_append (by omega), ← List.getLast?_eq_get?]
      exact hs
    have hmem : '/' ∈ (['t', 't', 'l'] : List Char) := List.get?_mem hidx
    simp at hmem
  · rw [sliceLast_append_right s t hge]
    exact ht

lemma endsSlash_append (POD lit : String) (hlit : lit.data.getLast? = some '/')
    (hne : lit.data ≠ []) : (POD ++ lit).data.getLast? = some '/' := by
  show (POD.data ++ lit.data).getLast? = some '/'
  rw [List.getLast?_append_of_ne_nil _ hne]
  exact hlit

lemma fetchUrl_endsSlash (session : Session) (ft m o u : String)
    (h : fetchUrl session ft m o = some u) : u.data.getLast? = some '/' := by
  simp only [fetchUrl] at h
  split_ifs at h with h1 h2 h3 <;>
    (rw [Option.some_inj] at h; rw [← h]; exact endsSlash_append _ _ (by decide) (by decide))

/-! ### C9: the Resource Locator -/

/-- C9: `fetchUrl` is pure; in self-fetch mode the pod root is the caller's
webId truncated at the `profile` segment, in cross mode it is
`https://<otherPodUrl>/`; each of the three supported document types maps to
the pod root followed by its URL-encoded segment and a trailing slash, and
every unrecognized type yields `none` ("no location"). -/
theorem fetchUrl_locations (p r o ft : String) (s : Session)
    (hp : ¬ profileChars <:+: p.data) :
    (fetchUrl ⟨p ++ "profile" ++ r⟩ "Bank Statement" "self-fetch" o
        = some (p ++ "Bank%20Statement/")
      ∧ fetchUrl ⟨p ++ "profile" ++ r⟩ "Passport" "self-fetch" o
        = some (p ++ "Passport/")
      ∧ fetchUrl ⟨p ++ "profile" ++ r⟩ "Drivers License" "self-fetch" o
        = some (p ++ "Drivers%20License/"))
    ∧ (fetchUrl s "Bank Statement" "cross-fetch" o
        = some ("https://" ++ o ++ "/" ++ "Bank%20Statement/")
      ∧ fetchUrl s "Passport" "cross-fetch" o
        = some ("https://" ++ o ++ "/" ++ "Passport/")
      ∧ fetchUrl s "Drivers License" "cross-fetch" o
        = some ("https://" ++ o ++ "/" ++ "Drivers%20License/"))
    ∧ (ft ≠ "Bank Statement" → ft ≠ "Passport" → ft ≠ "Drivers License" →
        fetchUrl s ft "self-fetch" o = none ∧ fetchUrl s ft "cross-fetch" o = none) := by
  refine ⟨⟨?_, ?_, ?_⟩, ⟨?_, ?_, ?_⟩, fun h1 h2 h3 => ⟨?_, ?_⟩⟩
  · simp [fetchUrl, splitFirst_profile p r hp]
  · simp [fetchUrl, splitFirst_profile p r hp]
  · simp [fetchUrl, splitFirst_profile p r hp]
  · simp [fetchUrl]
  · simp [fetchUrl]
  · simp [fetchUrl]
  · simp [fetchUrl, h1, h2, h3]
  · simp [fetchUrl, h1, h2, h3]

/-- Witness for C9 at concrete inputs. -/
theorem fetchUrl_locations_witness :
    fetchUrl ⟨"https://pod.example.com/" ++ "profile" ++ "/card#me"⟩ "Passport"
        "self-fetch" "pod2.example.com"
      = some ("https://pod.example.com/" ++ "Passport/")
    ∧ fetchUrl ⟨"x"⟩ "Bank Statement" "cross-fetch" "pod2.example.com"
      = some ("https://" ++ "pod2.example.com" ++ "/" ++ "Bank%20Statement/")
    ∧ fetchUrl ⟨"x"⟩ "Taxes" "self-fetch" "pod2.example.com" = none := by
  have h := fetchUrl_locations "https://pod.example.com/" "/card#me" "pod2.example.com"
    "Taxes" ⟨"x"⟩ (by decide)
  exact ⟨h.1.2.1, h.2.1.1, (h.2.2 (by decide) (by decide) (by decide)).1⟩

/-! ### C4 and C10: Retrieval and its uniform error -/

/-- C4: when the container read succeeds, `fetchDocuments` returns exactly the
resolved container URL; on any read failure (missing container, unauthorized,
invalid URL) it fails with the single uniform error
`No data found or unauthorized`, never distinguishing the underlying cause. -/
theorem fetchDocuments_uniform_error (st : PodState) (session : Session)
    (fileType fetchType otherPodUrl : String) :
    (∀ ds, getSolidDataset st (fetchUrl session fileType fetchType otherPodUrl) = .ok ds →
        ∃ u, fetchUrl session fileType fetchType otherPodUrl = some u
          ∧ fetchDocuments st session fileType fetchType otherPodUrl = .ok (some u))
    ∧ (∀ e, getSolidDataset st (fetchUrl session fileType fetchType otherPodUrl)
          = .error e →
        fetchDocuments st session fileType fetchType otherPodUrl
          = .error "No data found or unauthorized") := by
  constructor
  · intro ds hres
    cases hfu : fetchUrl session fileType fetchType otherPodUrl with
    | none =>
      rw [hfu] at hres
      simp [getSolidDataset] at hres
    | some u =>
      refine ⟨u, rfl, ?_⟩
      simp only [fetchDocuments]
      rw [hres, hfu]
  · intro e hres
    simp only [fetchDocuments]
    rw [hres]

/-- Witness for C4 at concrete inputs: one successful read returning the
resolved container URL, and one failing read yielding the uniform error. -/
theorem fetchDocuments_uniform_error_witness :
    getSolidDataset ⟨[("https://pod/Passport/", Container.mk [])], [], 0, false⟩
        (fetchUrl ⟨"https://pod/profile/card#me"⟩ "Passport" "self-fetch" "")
      = .ok (.listing "https://pod/Passport/" (Container.mk []))
    ∧ (∃ u, fetchUrl ⟨"https://pod/profile/card#me"⟩ "Passport" "self-fetch" "" = some u
        ∧ fetchDocuments ⟨[("https://pod/Passport/", Container.mk [])], [], 0, false⟩
            ⟨"https://pod/profile/card#me"⟩ "Passport" "self-fetch" "" = .ok (some u))
    ∧ getSolidDataset ⟨[], [], 0, false⟩
        (fetchUrl ⟨"https://pod/profile/card#me"⟩ "Passport" "self-fetch" "")
      = .error "not found or unauthorized"
    ∧ fetchDocuments ⟨[], [], 0, false⟩ ⟨"https://pod/profile/card#me"⟩ "Passport"
        "self-fetch" "" = .error "No data found or unauthorized" := by
  refine ⟨rfl, ?_, rfl, ?_⟩
  · exact (fetchDocuments_uniform_error
      ⟨[("https://pod/Passport/", Container.mk [])], [], 0, false⟩
      ⟨"https://pod/profile/card#me"⟩ "Passport" "self-fetch" "").1
      (.listing "https://pod/Passport/" (Container.mk [])) rfl
  · exact (fetchDocuments_uniform_error ⟨[], [], 0, false⟩
      ⟨"https://pod/profile/card#me"⟩ "Passport" "self-fetch" "").2
      "not found or unauthorized" rfl

/-- C10: an unrecognized document type makes the locator yield `null`; the
subsequent read fails and `fetchDocuments` reports the same uniform
`No data found or unauthorized` error as a missing or unauthorized container. -/
theorem fetchDocuments_unknown_type (st : PodState) (session : Session)
    (ft m o : String) (h1 : ft ≠ "Bank Statement") (h2 : ft ≠ "Passport")
    (h3 : ft ≠ "Drivers License") :
    fetchUrl session ft m o = none
    ∧ fetchDocuments st session ft m o = .error "No data found or unauthorized" := by
  have hfu : fetchUrl session ft m o = none := by simp [fetchUrl, h1, h2, h3]
  refine ⟨hfu, ?_⟩
  simp only [fetchDocuments]
  rw [hfu]
  rfl

/-! ### Association-list lemmas -/

lemma lookupKey_setKey_self (k : String) (v : α) (l : List (String × α)) :
    lookupKey k (setKey k v l) = some v := by
  induction l with
  | nil => simp [setKey, lookupKey]
  | cons h2 rest ih =>
    obtain ⟨k2, v2⟩ := h2
    by_cases hk : k2 = k
    · subst hk
      simp [setKey, lookupKey]
    · simp [setKey, lookupKey, hk, ih]

lemma lookupKey_setKey_ne (k k' : String) (v : α) (l : List (String × α))
    (h : k' ≠ k) : lookupKey k' (setKey k v l) = lookupKey k' l := by
  induction l with
  | nil => simp [setKey, lookupKey, Ne.symm h]
  | cons h2 rest ih =>
    obtain ⟨k2, v2⟩ := h2
    by_cases hk : k2 = k
    · subst hk
      simp [setKey, lookupKey, Ne.symm h]
    · simp only [setKey, if_neg hk, lookupKey]
      by_cases hk' : k2 = k'
      · simp [hk']
      · simp [hk', ih]

/-! ### C7 and C8: the Permission Manager -/

lemma setupAcl_lookup_self (acl : Acl) (w : String) (a : Access) :
    lookupKey w (setupAcl acl w a) = some ⟨some a, some a⟩ := by
  simp only [setupAcl, setAgentDefaultAccess, setAgentResourceAccess,
    lookupKey_setKey_self, Option.getD_some]

lemma setupAcl_lookup_ne (acl : Acl) (w w' : String) (a : Access) (h : w' ≠ w) :
    lookupKey w' (setupAcl acl w a) = lookupKey w' acl := by
  simp only [setupAcl, setAgentDefaultAccess, setAgentResourceAccess]
  rw [lookupKey_setKey_ne _ _ _ _ h, lookupKey_setKey_ne _ _ _ _ h]

lemma setDocAclPermission_run (st : PodState) (session : Session)
    (ft act other curl : String) (c : Container) (acl : Acl)
    (hfu : fetchUrl session ft "self-fetch" "" = some curl)
    (hc : lookupKey curl st.containers = some c)
    (hacl : lookupKey curl st.acls = some acl) :
    setDocAclPermission st session ft act other
      = .ok (saveAclFor curl
          (setupAcl acl ("https://" ++ other ++ "/profile/card#me")
            (if act = "Give" then readOnlyAccess true else readOnlyAccess false)) st) := by
  simp only [setDocAclPermission, getSolidDatasetWithAcl, getSolidDataset, hfu, hc,
    getResourceAcl, datasetUrl, hacl]

/-- C7: `setDocAclPermission` targets the WebID
`https://<otherPodUrl>/profile/card#me`, uses the access object `{read: true}`
for `"Give"` and `{read: false}` for any other access type, and records it as
both the direct-resource and the default access of that WebID in the saved ACL. -/
theorem setDocAclPermission_grant_revoke (st : PodState) (session : Session)
    (ft act other curl : String) (c : Container) (acl : Acl)
    (hfu : fetchUrl session ft "self-fetch" "" = some curl)
    (hc : lookupKey curl st.containers = some c)
    (hacl : lookupKey curl st.acls = some acl)
    (hact : act ≠ "Give") :
    (∃ st', setDocAclPermission st session ft "Give" other = .ok st'
      ∧ ∃ acl', lookupKey curl st'.acls = some acl'
        ∧ lookupKey ("https://" ++ other ++ "/profile/card#me") acl'
          = some ⟨some ⟨true, false, false, false⟩, some ⟨true, false, false, false⟩⟩)
    ∧ (∃ st', setDocAclPermission st session ft act other = .ok st'
      ∧ ∃ acl', lookupKey curl st'.acls = some acl'
        ∧ lookupKey ("https://" ++ other ++ "/profile/card#me") acl'
          = some ⟨some ⟨false, false, false, false⟩, some ⟨false, false, false, false⟩⟩) := by
  constructor
  · refine ⟨_, setDocAclPermission_run st session ft "Give" other curl c acl hfu hc hacl, ?_⟩
    simp only [saveAclFor, lookupKey_setKey_self]
    refine ⟨_, rfl, ?_⟩
    rw [if_pos trivial, setupAcl_lookup_self]
    rfl
  · refine ⟨_, setDocAclPermission_run st session ft act other curl c acl hfu hc hacl, ?_⟩
    simp only [saveAclFor, lookupKey_setKey_self]
    refine ⟨_, rfl, ?_⟩
    rw [if_neg hact, setupAcl_lookup_self]
    rfl

/-- Witness for C7 at concrete inputs. -/
theorem setDocAclPermission_grant_revoke_witness :
    fetchUrl ⟨"https://me.pod/profile/card#me"⟩ "Passport" "self-fetch" ""
      = some "https://me.pod/Passport/"
    ∧ lookupKey "https://me.pod/Passport/"
        ([("https://me.pod/Passport/", Container.mk [])])
      = some (Container.mk [])
    ∧ lookupKey "https://me.pod/Passport/"
        ([("https://me.pod/Passport/",
          ([("https://me.pod/profile/card#me",
            AclEntry.mk (some fullAccess) (some fullAccess))] : Acl))])
      = some [("https://me.pod/profile/card#me",
          AclEntry.mk (some fullAccess) (some fullAccess))]
    ∧ ("Revoke" : String) ≠ "Give"
    ∧ ((∃ st', setDocAclPermission
          ⟨[("https://me.pod/Passport/", Container.mk [])],
           [("https://me.pod/Passport/",
             [("https://me.pod/profile/card#me",
               AclEntry.mk (some fullAccess) (some fullAccess))])], 0, false⟩
          ⟨"https://me.pod/profile/card#me"⟩ "Passport" "Give" "you.pod" = .ok st'
        ∧ ∃ acl', lookupKey "https://me.pod/Passport/" st'.acls = some acl'
          ∧ lookupKey ("https://" ++ "you.pod" ++ "/profile/card#me") acl'
            = some ⟨some ⟨true, false, false, false⟩, some ⟨true, false, false, false⟩⟩)
      ∧ (∃ st', setDocAclPermission
          ⟨[("https://me.pod/Passport/", Container.mk [])],
           [("https://me.pod/Passport/",
             [("https://me.pod/profile/card#me",
               AclEntry.mk (some fullAccess) (some fullAccess))])], 0, false⟩
          ⟨"https://me.pod/profile/card#me"⟩ "Passport" "Revoke" "you.pod" = .ok st'
        ∧ ∃ acl', lookupKey "https://me.pod/Passport/" st'.acls = some acl'
          ∧ lookupKey ("https://" ++ "you.pod" ++ "/profile/card#me") acl'
            = some ⟨some ⟨false, false, false, false⟩,
                some ⟨false, false, false, false⟩⟩)) := by
  refine ⟨by decide, by decide, by decide, by decide, ?_⟩
  exact setDocAclPermission_grant_revoke _ ⟨"https://me.pod/profile/card#me"⟩
    "Passport" "Revoke" "you.pod" "https://me.pod/Passport/" (Container.mk [])
    [("https://me.pod/profile/card#me", AclEntry.mk (some fullAccess) (some fullAccess))]
    (by decide) (by decide) (by decide) (by decide)

/-- C8: a `setDocAclPermission` call (grant or revoke) modifies only the
targeted external identity's access entry: every other identity's entry in the
container's ACL — in particular the owner's full-access entry — and every
other resource's ACL are left unchanged. -/
theorem setDocAclPermission_frame (st : PodState) (session : Session)
    (ft act other curl w : String) (c : Container) (acl : Acl)
    (hfu : fetchUrl session ft "self-fetch" "" = some curl)
    (hc : lookupKey curl st.containers = some c)
    (hacl : lookupKey curl st.acls = some acl)
    (hw : w ≠ "https://" ++ other ++ "/profile/card#me") :
    ∃ st', setDocAclPermission st session ft act other = .ok st'
      ∧ (∃ acl', lookupKey curl st'.acls = some acl'
          ∧ lookupKey w acl' = lookupKey w acl)
      ∧ ∀ u2, u2 ≠ curl → lookupKey u2 st'.acls = lookupKey u2 st.acls := by
  refine ⟨_, setDocAclPermission_run st session ft act other curl c acl hfu hc hacl, ?_, ?_⟩
  · simp only [saveAclFor, lookupKey_setKey_self]
    refine ⟨_, rfl, ?_⟩
    exact setupAcl_lookup_ne _ _ _ _ hw
  · intro u2 hu2
    simp only [saveAclFor]
    exact lookupKey_setKey_ne _ _ _ _ hu2

/-- Witness for C8 at concrete inputs: the owner's entry survives a grant. -/
theorem setDocAclPermission_frame_witness :
    fetchUrl ⟨"https://me.pod/profile/card#me"⟩ "Passport" "self-fetch" ""
      = some "https://me.pod/Passport/"
    ∧ ("https://me.pod/profile/card#me" : String)
        ≠ "https://" ++ "you.pod" ++ "/profile/card#me"
    ∧ (∃ st', setDocAclPermission
          ⟨[("https://me.pod/Passport/", Container.mk [])],
           [("https://me.pod/Passport/",
             [("https://me.pod/profile/card#me",
               AclEntry.mk (some fullAccess) (some fullAccess))])], 0, false⟩
          ⟨"https://me.pod/profile/card#me"⟩ "Passport" "Give" "you.pod" = .ok st'
        ∧ (∃ acl', lookupKey "https://me.pod/Passport/" st'.acls = some acl'
            ∧ lookupKey "https://me.pod/profile/card#me" acl'
              = lookupKey "https://me.pod/profile/card#me"
                  [("https://me.pod/profile/card#me",
                    AclEntry.mk (some fullAccess) (some fullAccess))])
        ∧ ∀ u2, u2 ≠ "https://me.pod/Passport/"
            → lookupKey u2 st'.acls
              = lookupKey u2
                  [("https://me.pod/Passport/",
                    [("https://me.pod/profile/card#me",
                      AclEntry.mk (some fullAccess) (some fullAccess))])]) := by
  refine ⟨by decide, by decide, ?_⟩
  exact setDocAclPermission_frame _ ⟨"https://me.pod/profile/card#me"⟩
    "Passport" "Give" "you.pod" "https://me.pod/Passport/"
    "https://me.pod/profile/card#me" (Container.mk [])
    [("https://me.pod/profile/card#me", AclEntry.mk (some fullAccess) (some fullAccess))]
    (by decide) (by decide) (by decide) (by decide)

/-! ### C5: the deletion pipeline's partition -/

lemma getLast?_cons_or (a : α) (l : List α) : (a :: l).getLast? = l.getLast?.or (some a) := by
  induction l generalizing a with
  | nil => rfl
  | cons b m ih =>
    rw [List.getLast?_cons_cons, ih b]
    cases m.getLast? <;> rfl

lemma partitionFiles_eq (l : List String) (acc1 : Option String) (acc2 : List String) :
    partitionFiles (acc1, acc2) l
      = ((l.filter slashIn).getLast?.or acc1,
         acc2 ++ l.filter (fun u => !slashIn u)) := by
  induction l generalizing acc1 acc2 with
  | nil => simp [partitionFiles]
  | cons u us ih =>
    by_cases h : slashIn u
    · have hf1 : List.filter slashIn (u :: us) = u :: List.filter slashIn us := by
        simp [List.filter_cons, h]
      have hf2 : List.filter (fun v => !slashIn v) (u :: us)
          = List.filter (fun v => !slashIn v) us := by
        simp [List.filter_cons, h]
      rw [show partitionFiles (acc1, acc2) (u :: us) = partitionFiles (some u, acc2) us from
        by simp [partitionFiles, h]]
      rw [ih, hf1, hf2, getLast?_cons_or]
      cases (List.filter slashIn us).getLast? <;> rfl
    · have hb : slashIn u = false := by simpa using h
      have hf1 : List.filter slashIn (u :: us) = List.filter slashIn us := by
        simp [List.filter_cons, hb]
      have hf2 : List.filter (fun v => !slashIn v) (u :: us)
          = u :: List.filter (fun v => !slashIn v) us := by
        simp [List.filter_cons, hb]
      rw [show partitionFiles (acc1, acc2) (u :: us) = partitionFiles (acc1, acc2 ++ [u]) us
        from by simp [partitionFiles, h]]
      rw [ih, hf1, hf2]
      simp [List.append_assoc]

lemma deleteFilesLoop_all_files (l : List String) (st : PodState)
    (h : ∀ u ∈ l, slashIn u = false) :
    deleteFilesLoop st l = (l.foldl (fun s u => deleteFile u s) st, l) := by
  induction l generalizing st with
  | nil => rfl
  | cons u us ih =>
    have hu : slashIn u = false := h u (List.mem_cons_self u us)
    simp only [deleteFilesLoop, hu, Bool.false_eq_true, if_false, List.foldl_cons]
    rw [ih (deleteFile u st) (fun v hv => h v (List.mem_cons_of_mem u hv))]

/-- C5 (counterexample): on a container holding the single file resource
`https://pod/Passport/ab` — whose URL does not end in `/` — the code issues no
delete call at all and returns the file's URL, while the claimed trailing-slash
partition classifies that URL as a file to delete and the container URL
`https://pod/Passport/` as the one to return. -/
theorem deleteDocumentFile_claim_cex :
    deleteDocumentFile
        ⟨[("https://pod/Passport/",
           Container.mk [("https://pod/Passport/ab", Resource.file)])], [], 0, false⟩
        ⟨"https://pod/profile/card#me"⟩ "Passport"
      = .ok
          (⟨[("https://pod/Passport/",
              Container.mk [("https://pod/Passport/ab", Resource.file)])], [], 0, false⟩,
           some "https://pod/Passport/ab", [])
    ∧ specTrailingSlashFiles ["https://pod/Passport/", "https://pod/Passport/ab"]
      = ["https://pod/Passport/ab"]
    ∧ specTrailingSlashContainer ["https://pod/Passport/", "https://pod/Passport/ab"]
      = some "https://pod/Passport/"
    ∧ (([] : List String) ≠ ["https://pod/Passport/ab"])
    ∧ (some "https://pod/Passport/ab" ≠ some "https://pod/Passport/") := by
  refine ⟨rfl, rfl, rfl, by decide, by decide⟩

/-- C5 (amended): `deleteDocumentFile` resolves the container, reads its item
list, and partitions it by whether the last three characters of an item's URL
contain a slash: items without one are files — each of them gets exactly one
delete call — and the last item with one is treated as the container, whose URL
is returned. -/
theorem deleteDocumentFile_last3_partition (st : PodState) (session : Session)
    (ft curl : String) (c : Container)
    (hfu : fetchUrl session ft "self-fetch" "" = some curl)
    (hc : lookupKey curl st.containers = some c) :
    deleteDocumentFile st session ft
      = .ok
          (((curl :: c.items.map Prod.fst).filter (fun u => !slashIn u)).foldl
              (fun s u => deleteFile u s) st,
           ((curl :: c.items.map Prod.fst).filter slashIn).getLast?,
           (curl :: c.items.map Prod.fst).filter (fun u => !slashIn u)) := by
  have hds : getSolidDataset st (some curl) = .ok (.listing curl c) := by
    simp [getSolidDataset, hc]
  simp only [deleteDocumentFile, hfu, hds, hasFiles, getThingAll, partitionFiles_eq,
    List.nil_append, Option.or_none]
  rw [deleteFilesLoop_all_files _ st (fun u hu => by
    have hm := List.mem_filter.mp hu
    simpa using hm.2)]

/-- Witness for the amended C5 at concrete inputs. -/
theorem deleteDocumentFile_last3_partition_witness :
    fetchUrl ⟨"https://pod/profile/card#me"⟩ "Passport" "self-fetch" ""
      = some "https://pod/Passport/"
    ∧ lookupKey "https://pod/Passport/"
        ([("https://pod/Passport/",
           Container.mk [("https://pod/Passport/doc.pdf", Resource.file)])])
      = some (Container.mk [("https://pod/Passport/doc.pdf", Resource.file)])
    ∧ deleteDocumentFile
        ⟨[("https://pod/Passport/",
           Container.mk [("https://pod/Passport/doc.pdf", Resource.file)])], [], 0, false⟩
        ⟨"https://pod/profile/card#me"⟩ "Passport"
      = .ok
          ((("https://pod/Passport/"
                :: (Container.mk [("https://pod/Passport/doc.pdf", Resource.file)]).items.map
                  Prod.fst).filter (fun u => !slashIn u)).foldl
              (fun s u => deleteFile u s)
              ⟨[("https://pod/Passport/",
                 Container.mk [("https://pod/Passport/doc.pdf", Resource.file)])], [], 0, false⟩,
           (("https://pod/Passport/"
                :: (Container.mk [("https://pod/Passport/doc.pdf", Resource.file)]).items.map
                  Prod.fst).filter slashIn).getLast?,
           ("https://pod/Passport/"
                :: (Container.mk [("https://pod/Passport/doc.pdf", Resource.file)]).items.map
                  Prod.fst).filter (fun u => !slashIn u)) := by
  refine ⟨by decide, by decide, ?_⟩
  exact deleteDocumentFile_last3_partition _ ⟨"https://pod/profile/card#me"⟩
    "Passport" "https://pod/Passport/"
    (Container.mk [("https://pod/Passport/doc.pdf", Resource.file)]) (by decide) (by decide)

/-! ### Upload pipeline lemmas (C1, C2, C3) -/

lemma append_left_ne (s a b : String) (h : a ≠ b) : s ++ a ≠ s ++ b := by
  intro he
  apply h
  have hd : s.data ++ a.data = s.data ++ b.data := congrArg String.data he
  have hab := List.append_cancel_left hd
  calc a = ⟨a.data⟩ := rfl
    _ = ⟨b.data⟩ := by rw [hab]
    _ = b := rfl

lemma ne_of_sliceLast_ne {a b : String} (h : sliceLast a 3 ≠ sliceLast b 3) : a ≠ b :=
  fun he => h (he ▸ rfl)

lemma sliceLast_dsName (s : String) (k : Nat) : sliceLast (s ++ dsName k) 3 = "ttl" := by
  rw [dsName, ← String.append_assoc]
  rw [sliceLast_append_right _ ".ttl" (by decide)]
  rfl

lemma thingName_ne (a b2 : Nat) (h : a ≠ b2) : thingName a ≠ thingName b2 := by
  intro he
  apply h
  have hd : "#thing".data ++ List.replicate a 'x' = "#thing".data ++ List.replicate b2 'x' :=
    congrArg String.data he
  have hr := List.append_cancel_left hd
  have hl := congrArg List.length hr
  simpa using hl

lemma mem_removeMatching (u : String) (d : MetaDataset) (x : MetaThing) :
    x ∈ removeMatching u d ↔ x ∈ d ∧ x.url ≠ u := by
  induction d with
  | nil => simp [removeMatching]
  | cons y ys ih =>
    by_cases hy : y.url = u
    · rw [removeMatching, if_pos hy, ih]
      simp only [List.mem_cons]
      constructor
      · exact fun hm => ⟨Or.inr hm.1, hm.2⟩
      · rintro ⟨hor, hne⟩
        cases hor with
        | inl he => exact absurd (he ▸ hy) hne
        | inr hm => exact ⟨hm, hne⟩
    · rw [removeMatching, if_neg hy]
      simp only [List.mem_cons, ih]
      constructor
      · rintro (he | ⟨hm, hne⟩)
        · exact ⟨Or.inl he, he ▸ hy⟩
        · exact ⟨Or.inr hm, hne⟩
      · rintro ⟨hor, hne⟩
        cases hor with
        | inl he => exact Or.inl he
        | inr hm => exact Or.inr ⟨hm, hne⟩

lemma setThing_mem (d : MetaDataset) (t x : MetaThing) :
    (x ∈ setThing d t → x.url ≠ t.url → x ∈ d)
    ∧ (x ∈ d → x.url ≠ t.url → x ∈ setThing d t)
    ∧ t ∈ setThing d t
    ∧ (x ∈ setThing d t → x.url = t.url → x = t) := by
  refine ⟨?_, ?_, ?_, ?_⟩
  · intro hm hne
    rcases List.mem_append.mp hm with hl | hr
    · exact ((mem_removeMatching t.url d x).mp hl).1
    · exact absurd (congrArg MetaThing.url (List.mem_singleton.mp hr)) hne
  · intro hm hne
    exact List.mem_append.mpr (Or.inl ((mem_removeMatching t.url d x).mpr ⟨hm, hne⟩))
  · exact List.mem_append.mpr (Or.inr (List.mem_singleton.mpr rfl))
  · intro hm he
    rcases List.mem_append.mp hm with hl | hr
    · exact absurd he ((mem_removeMatching t.url d x).mp hl).2
    · exact List.mem_singleton.mp hr

lemma uploadDocument_first (A : List (String × Acl)) (n : Nat) (b : Bool)
    (session : Session) (fo : FileObject) (curl : String)
    (hfu : fetchUrl session fo.type "self-fetch" "" = some curl)
    (hft : sliceLast fo.fileName 3 ≠ "ttl") :
    uploadDocument ⟨[], A, n, b⟩ session fo
      = .ok ⟨[(curl, ⟨fileItems b curl fo
              ++ [(curl ++ dsName (n + 1), Resource.dataset [mkThing n fo])]⟩)],
             setKey curl [(session.webId, ⟨some fullAccess, some fullAccess⟩)] A,
             n + 2, b⟩ := by
  have hslash : curl.data.getLast? = some '/' :=
    fetchUrl_endsSlash session fo.type "self-fetch" "" curl hfu
  have hcttl : sliceLast curl 3 ≠ "ttl" := getLast_slash_ne_ttl curl hslash
  have hfttl : sliceLast (curl ++ fo.fileName) 3 ≠ "ttl" :=
    slash_append_ne_ttl curl fo.fileName hslash hft
  cases b <;>
    simp [uploadDocument, hfu, createContainerAt, lookupKey, placeFileInContainer,
      saveFileInContainer, setKey, getSolidDataset, hasTTLFiles, getThingAll, findTTL,
      hcttl, hfttl, createThing, buildThing, createSolidDataset, setThing, removeMatching,
      saveSolidDatasetInContainer, createDocAclForUser, createAcl, setupAcl,
      setAgentResourceAccess, setAgentDefaultAccess, saveAclFor, noAclEntry,
      fileItems, mkThing, thingName]

lemma uploadDocument_second (A2 : List (String × Acl)) (n2 k : Nat) (b : Bool)
    (session : Session) (fo1 fo2 : FileObject) (curl : String) (D : MetaDataset)
    (hfu : fetchUrl session fo2.type "self-fetch" "" = some curl)
    (hf1 : sliceLast fo1.fileName 3 ≠ "ttl")
    (hf2 : sliceLast fo2.fileName 3 ≠ "ttl")
    (hne : fo1.fileName ≠ fo2.fileName) :
    uploadDocument
        ⟨[(curl, ⟨fileItems b curl fo1 ++ [(curl ++ dsName k, Resource.dataset D)]⟩)],
         A2, n2, b⟩ session fo2
      = .ok ⟨[(curl, ⟨fileItems b curl fo1
              ++ [(curl ++ dsName k, Resource.dataset (setThing D (mkThing n2 fo2)))]
              ++ fileItems b curl fo2⟩)],
             A2, n2 + 1, b⟩ := by
  have hslash : curl.data.getLast? = some '/' :=
    fetchUrl_endsSlash session fo2.type "self-fetch" "" curl hfu
  have hcttl : sliceLast curl 3 ≠ "ttl" := getLast_slash_ne_ttl curl hslash
  have hf1url : sliceLast (curl ++ fo1.fileName) 3 ≠ "ttl" :=
    slash_append_ne_ttl curl fo1.fileName hslash hf1
  have hf2url : sliceLast (curl ++ fo2.fileName) 3 ≠ "ttl" :=
    slash_append_ne_ttl curl fo2.fileName hslash hf2
  have hds : sliceLast (curl ++ dsName k) 3 = "ttl" := sliceLast_dsName curl k
  have hne12 : curl ++ fo1.fileName ≠ curl ++ fo2.fileName := append_left_ne _ _ _ hne
  have hne_1ds : curl ++ fo1.fileName ≠ curl ++ dsName k :=
    ne_of_sliceLast_ne (by rw [sliceLast_dsName]; exact hf1url)
  have hne_ds1 : curl ++ dsName k ≠ curl ++ fo1.fileName := Ne.symm hne_1ds
  have hne_2ds : curl ++ fo2.fileName ≠ curl ++ dsName k :=
    ne_of_sliceLast_ne (by rw [sliceLast_dsName]; exact hf2url)
  have hne_ds2 : curl ++ dsName k ≠ curl ++ fo2.fileName := Ne.symm hne_2ds
  have hne_cds : curl ≠ curl ++ dsName k :=
    ne_of_sliceLast_ne (by rw [sliceLast_dsName]; exact hcttl)
  have hne_dsc : curl ++ dsName k ≠ curl := Ne.symm hne_cds
  cases b <;>
    simp [uploadDocument, hfu, createContainerAt, lookupKey, placeFileInContainer,
      saveFileInContainer, setKey, getSolidDataset, hasTTLFiles, getThingAll, findTTL,
      findDatasetItem, saveSolidDatasetAt, hcttl, hf1url, hf2url, hds, hne12,
      Ne.symm hne12, hne_1ds, hne_ds1, hne_2ds, hne_ds2, hne_cds, hne_dsc,
      createThing, buildThing, fileItems, mkThing, thingName]

/-- C1: two uploads of the same document type create exactly one metadata
dataset in the container; the second call merges its Thing into the existing
dataset by replace-by-identity on the subject URL (same subject overwrites,
fresh subject adds), neither duplicating nor losing the first file's Thing. -/
theorem uploadDocument_twice_merges (A : List (String × Acl)) (n : Nat)
    (session : Session) (fo1 fo2 : FileObject) (curl : String)
    (hfu1 : fetchUrl session fo1.type "self-fetch" "" = some curl)
    (hty : fo2.type = fo1.type)
    (hf1 : sliceLast fo1.fileName 3 ≠ "ttl")
    (hf2 : sliceLast fo2.fileName 3 ≠ "ttl")
    (hne : fo1.fileName ≠ fo2.fileName) :
    ∃ st1 st2,
      uploadDocument ⟨[], A, n, false⟩ session fo1 = .ok st1
      ∧ uploadDocument st1 session fo2 = .ok st2
      ∧ (∃ u1 u2, u1 ≠ u2
          ∧ (∃ c1, lookupKey curl st1.containers = some c1
              ∧ datasetsIn c1.items
                = [[⟨u1, fo1.fileName, fo1.type, fo1.date, fo1.description⟩]])
          ∧ (∃ c2, lookupKey curl st2.containers = some c2
              ∧ datasetsIn c2.items
                = [[⟨u1, fo1.fileName, fo1.type, fo1.date, fo1.description⟩,
                    ⟨u2, fo2.fileName, fo2.type, fo2.date, fo2.description⟩]]))
      ∧ (∀ (d : MetaDataset) (t x : MetaThing),
          (x ∈ setThing d t → x.url ≠ t.url → x ∈ d)
          ∧ (x ∈ d → x.url ≠ t.url → x ∈ setThing d t)
          ∧ t ∈ setThing d t
          ∧ (x ∈ setThing d t → x.url = t.url → x = t)) := by
  have hfu2 : fetchUrl session fo2.type "self-fetch" "" = some curl := by
    rw [hty]
    exact hfu1
  have h1 := uploadDocument_first A n false session fo1 curl hfu1 hf1
  have h2 := uploadDocument_second
    (setKey curl [(session.webId, ⟨some fullAccess, some fullAccess⟩)] A)
    (n + 2) (n + 1) false session fo1 fo2 curl [mkThing n fo1] hfu2 hf1 hf2 hne
  refine ⟨_, _, h1, h2,
    ⟨thingName n, thingName (n + 2), thingName_ne n (n + 2) (by omega),
      ⟨⟨fileItems false curl fo1
          ++ [(curl ++ dsName (n + 1), Resource.dataset [mkThing n fo1])]⟩, ?_, ?_⟩,
      ⟨⟨fileItems false curl fo1
          ++ [(curl ++ dsName (n + 1),
               Resource.dataset (setThing [mkThing n fo1] (mkThing (n + 2) fo2)))]
          ++ fileItems false curl fo2⟩, ?_, ?_⟩⟩,
    fun d t x => setThing_mem d t x⟩
  · simp [lookupKey]
  · simp [datasetsIn, fileItems, mkThing]
  · simp [lookupKey]
  · simp [datasetsIn, fileItems, setThing, removeMatching, mkThing,
      thingName_ne n (n + 2) (by omega)]

/-- Witness for C1 at concrete inputs. -/
theorem uploadDocument_twice_merges_witness :
    fetchUrl ⟨"https://pod.example.com/profile/card#me"⟩ "Passport" "self-fetch" ""
      = some "https://pod.example.com/Passport/"
    ∧ ("Passport" : String) = "Passport"
    ∧ sliceLast "file1.pdf" 3 ≠ "ttl"
    ∧ sliceLast "file2.pdf" 3 ≠ "ttl"
    ∧ ("file1.pdf" : String) ≠ "file2.pdf"
    ∧ (∃ st1 st2,
        uploadDocument ⟨[], [], 0, false⟩ ⟨"https://pod.example.com/profile/card#me"⟩
            ⟨"Passport", "2024-01-01", "first", "file1.pdf"⟩ = .ok st1
        ∧ uploadDocument st1 ⟨"https://pod.example.com/profile/card#me"⟩
            ⟨"Passport", "2024-02-02", "second", "file2.pdf"⟩ = .ok st2
        ∧ (∃ u1 u2, u1 ≠ u2
            ∧ (∃ c1, lookupKey "https://pod.example.com/Passport/" st1.containers = some c1
                ∧ datasetsIn c1.items
                  = [[⟨u1, "file1.pdf", "Passport", "2024-01-01", "first"⟩]])
            ∧ (∃ c2, lookupKey "https://pod.example.com/Passport/" st2.containers = some c2
                ∧ datasetsIn c2.items
                  = [[⟨u1, "file1.pdf", "Passport", "2024-01-01", "first"⟩,
                      ⟨u2, "file2.pdf", "Passport", "2024-02-02", "second"⟩]]))
        ∧ (∀ (d : MetaDataset) (t x : MetaThing),
            (x ∈ setThing d t → x.url ≠ t.url → x ∈ d)
            ∧ (x ∈ d → x.url ≠ t.url → x ∈ setThing d t)
            ∧ t ∈ setThing d t
            ∧ (x ∈ setThing d t → x.url = t.url → x = t))) := by
  refine ⟨by decide, rfl, by decide, by decide, by decide, ?_⟩
  exact uploadDocument_twice_merges [] 0 ⟨"https://pod.example.com/profile/card#me"⟩
    ⟨"Passport", "2024-01-01", "first", "file1.pdf"⟩
    ⟨"Passport", "2024-02-02", "second", "file2.pdf"⟩
    "https://pod.example.com/Passport/" (by decide) rfl (by decide) (by decide) (by decide)

/-- C2: the owner's ACL is bootstrapped exactly once per container — by the
branch of `uploadDocument` that creates the first metadata dataset, never by
the merge branch — and grants the owner's own webId the full access object
`{read, append, write, control}` as both direct-resource and default access. -/
theorem uploadDocument_acl_bootstrap_once (A : List (String × Acl)) (n : Nat)
    (session : Session) (fo1 fo2 : FileObject) (curl : String)
    (hfu1 : fetchUrl session fo1.type "self-fetch" "" = some curl)
    (hty : fo2.type = fo1.type)
    (hf1 : sliceLast fo1.fileName 3 ≠ "ttl")
    (hf2 : sliceLast fo2.fileName 3 ≠ "ttl")
    (hne : fo1.fileName ≠ fo2.fileName) :
    ∃ st1 st2,
      uploadDocument ⟨[], A, n, false⟩ session fo1 = .ok st1
      ∧ uploadDocument st1 session fo2 = .ok st2
      ∧ lookupKey curl st1.acls
        = some [(session.webId, AclEntry.mk (some fullAccess) (some fullAccess))]
      ∧ fullAccess = ⟨true, true, true, true⟩
      ∧ st2.acls = st1.acls := by
  have hfu2 : fetchUrl session fo2.type "self-fetch" "" = some curl := by
    rw [hty]
    exact hfu1
  have h1 := uploadDocument_first A n false session fo1 curl hfu1 hf1
  have h2 := uploadDocument_second
    (setKey curl [(session.webId, ⟨some fullAccess, some fullAccess⟩)] A)
    (n + 2) (n + 1) false session fo1 fo2 curl [mkThing n fo1] hfu2 hf1 hf2 hne
  exact ⟨_, _, h1, h2, lookupKey_setKey_self curl _ A, rfl, rfl⟩

/-- Witness for C2 at concrete inputs. -/
theorem uploadDocument_acl_bootstrap_once_witness :
    fetchUrl ⟨"https://pod.example.com/profile/card#me"⟩ "Passport" "self-fetch" ""
      = some "https://pod.example.com/Passport/"
    ∧ ("Passport" : String) = "Passport"
    ∧ sliceLast "doc1.png" 3 ≠ "ttl"
    ∧ sliceLast "doc2.png" 3 ≠ "ttl"
    ∧ ("doc1.png" : String) ≠ "doc2.png"
    ∧ (∃ st1 st2,
        uploadDocument ⟨[], [], 0, false⟩ ⟨"https://pod.example.com/profile/card#me"⟩
            ⟨"Passport", "2024-01-01", "a", "doc1.png"⟩ = .ok st1
        ∧ uploadDocument st1 ⟨"https://pod.example.com/profile/card#me"⟩
            ⟨"Passport", "2024-02-02", "b", "doc2.png"⟩ = .ok st2
        ∧ lookupKey "https://pod.example.com/Passport/" st1.acls
          = some [("https://pod.example.com/profile/card#me",
              AclEntry.mk (some fullAccess) (some fullAccess))]
        ∧ fullAccess = ⟨true, true, true, true⟩
        ∧ st2.acls = st1.acls) := by
  refine ⟨by decide, rfl, by decide, by decide, by decide, ?_⟩
  exact uploadDocument_acl_bootstrap_once [] 0 ⟨"https://pod.example.com/profile/card#me"⟩
    ⟨"Passport", "2024-01-01", "a", "doc1.png"⟩
    ⟨"Passport", "2024-02-02", "b", "doc2.png"⟩
    "https://pod.example.com/Passport/" (by decide) rfl (by decide) (by decide) (by decide)

/-- C3: a failing file placement is caught inside `placeFileInContainer`
(state and result are as if nothing happened, no error escapes), and
`uploadDocument` still proceeds to read the container and perform the metadata
create-or-merge write: with placement failing on every call, both uploads
succeed, no file resource is stored, yet the metadata dataset is created and
then merged. -/
theorem uploadDocument_placement_failure_swallowed (A : List (String × Acl)) (n : Nat)
    (session : Session) (fo1 fo2 : FileObject) (curl : String)
    (hfu1 : fetchUrl session fo1.type "self-fetch" "" = some curl)
    (hty : fo2.type = fo1.type)
    (hf1 : sliceLast fo1.fileName 3 ≠ "ttl")
    (hf2 : sliceLast fo2.fileName 3 ≠ "ttl")
    (hne : fo1.fileName ≠ fo2.fileName) :
    (∀ (st : PodState) (fo : FileObject) (u : String),
        st.failFilePlacement = true → placeFileInContainer st fo u = (st, none))
    ∧ (∃ st1 st2,
        uploadDocument ⟨[], A, n, true⟩ session fo1 = .ok st1
        ∧ uploadDocument st1 session fo2 = .ok st2
        ∧ (∃ u1 u2, u1 ≠ u2
            ∧ (∃ c1, lookupKey curl st1.containers = some c1
                ∧ datasetsIn c1.items
                  = [[⟨u1, fo1.fileName, fo1.type, fo1.date, fo1.description⟩]]
                ∧ ∀ p ∈ c1.items, p.2 ≠ Resource.file)
            ∧ (∃ c2, lookupKey curl st2.containers = some c2
                ∧ datasetsIn c2.items
                  = [[⟨u1, fo1.fileName, fo1.type, fo1.date, fo1.description⟩,
                      ⟨u2, fo2.fileName, fo2.type, fo2.date, fo2.description⟩]]
                ∧ ∀ p ∈ c2.items, p.2 ≠ Resource.file))) := by
  have hfu2 : fetchUrl session fo2.type "self-fetch" "" = some curl := by
    rw [hty]
    exact hfu1
  have h1 := uploadDocument_first A n true session fo1 curl hfu1 hf1
  have h2 := uploadDocument_second
    (setKey curl [(session.webId, ⟨some fullAccess, some fullAccess⟩)] A)
    (n + 2) (n + 1) true session fo1 fo2 curl [mkThing n fo1] hfu2 hf1 hf2 hne
  refine ⟨?_, _, _, h1, h2,
    ⟨thingName n, thingName (n + 2), thingName_ne n (n + 2) (by omega),
      ⟨⟨fileItems true curl fo1
          ++ [(curl ++ dsName (n + 1), Resource.dataset [mkThing n fo1])]⟩, ?_, ?_, ?_⟩,
      ⟨⟨fileItems true curl fo1
          ++ [(curl ++ dsName (n + 1),
               Resource.dataset (setThing [mkThing n fo1] (mkThing (n + 2) fo2)))]
          ++ fileItems true curl fo2⟩, ?_, ?_, ?_⟩⟩⟩
  · intro st fo u hb
    simp [placeFileInContainer, saveFileInContainer, hb]
  · simp [lookupKey]
  · simp [datasetsIn, fileItems, mkThing]
  · simp [fileItems]
  · simp [lookupKey]
  · simp [datasetsIn, fileItems, setThing, removeMatching, mkThing,
      thingName_ne n (n + 2) (by omega)]
  · simp [fileItems]

/-- Witness for C3 at concrete inputs. -/
theorem uploadDocument_placement_failure_swallowed_witness :
    fetchUrl ⟨"https://pod.example.com/profile/card#me"⟩ "Passport" "self-fetch" ""
      = some "https://pod.example.com/Passport/"
    ∧ ("Passport" : String) = "Passport"
    ∧ sliceLast "img1.jpg" 3 ≠ "ttl"
    ∧ sliceLast "img2.jpg" 3 ≠ "ttl"
    ∧ ("img1.jpg" : String) ≠ "img2.jpg"
    ∧ ((∀ (st : PodState) (fo : FileObject) (u : String),
          st.failFilePlacement = true → placeFileInContainer st fo u = (st, none))
      ∧ (∃ st1 st2,
          uploadDocument ⟨[], [], 0, true⟩ ⟨"https://pod.example.com/profile/card#me"⟩
              ⟨"Passport", "2024-01-01", "a", "img1.jpg"⟩ = .ok st1
          ∧ uploadDocument st1 ⟨"https://pod.example.com/profile/card#me"⟩
              ⟨"Passport", "2024-02-02", "b", "img2.jpg"⟩ = .ok st2
          ∧ (∃ u1 u2, u1 ≠ u2
              ∧ (∃ c1, lookupKey "https://pod.example.com/Passport/" st1.containers = some c1
                  ∧ datasetsIn c1.items
                    = [[⟨u1, "img1.jpg", "Passport", "2024-01-01", "a"⟩]]
                  ∧ ∀ p ∈ c1.items, p.2 ≠ Resource.file)
              ∧ (∃ c2, lookupKey "https://pod.example.com/Passport/" st2.containers = some c2
                  ∧ datasetsIn c2.items
                    = [[⟨u1, "img1.jpg", "Passport", "2024-01-01", "a"⟩,
                        ⟨u2, "img2.jpg", "Passport", "2024-02-02", "b"⟩]]
                  ∧ ∀ p ∈ c2.items, p.2 ≠ Resource.file)))) := by
  refine ⟨by decide, rfl, by decide, by decide, by decide, ?_⟩
  exact uploadDocument_placement_failure_swallowed [] 0
    ⟨"https://pod.example.com/profile/card#me"⟩
    ⟨"Passport", "2024-01-01", "a", "img1.jpg"⟩
    ⟨"Passport", "2024-02-02", "b", "img2.jpg"⟩
    "https://pod.example.com/Passport/" (by decide) rfl (by decide) (by decide) (by decide)

/-- Witness for C10 at concrete inputs. -/
theorem fetchDocuments_unknown_type_witness :
    ("Taxes" : String) ≠ "Bank Statement"
    ∧ fetchUrl ⟨"w"⟩ "Taxes" "self-fetch" "" = none
    ∧ fetchDocuments ⟨[], [], 0, false⟩ ⟨"w"⟩ "Taxes" "self-fetch" ""
        = .error "No data found or unauthorized" := by
  have h := fetchDocuments_unknown_type ⟨[], [], 0, false⟩ ⟨"w"⟩ "Taxes" "self-fetch" ""
    (by decide) (by decide) (by decide)
  exact ⟨by decide, h.1, h.2⟩

end PASS
